import Mathlib

/-!
Shallow embedding of `rail_recognition/src/PointCloudRecognizer.cpp`
(`recognizeObject`, `scoreRegistration`, `computeGraspList`) together with the
data model it operates on (`graspdb::Grasp`, `graspdb::GraspModel`,
`graspdb::Pose`, `rail_manipulation_msgs::SegmentedObject`).

Numeric values (doubles in the source) are embedded as exact rationals.  The
external point-cloud library calls (`performICP`,
`calculateRegistrationMetricOverlap`, `calculateRegistrationMetricDistanceError`,
`calculateAvgColors`) are oracles: their per-candidate results are recorded as
fields of the candidate record, and the observed cloud's average colors are
parameters of the recognizer.  The configuration constants declared in
`PointCloudRecognizer.h` (`COLOR_THRESHOLD`, `SCORE_CONFIDENCE_THRESHOLD`,
`ALPHA`) are fields of a configuration record.
-/

/-- A 3-D vector (`tf2::Vector3` / `geometry_msgs::Point`), exact coordinates. -/
structure Vec3 where
  x : ℚ
  y : ℚ
  z : ℚ
deriving DecidableEq

/-- A quaternion (`tf2::Quaternion` / `geometry_msgs::Quaternion`). -/
structure Quat where
  x : ℚ
  y : ℚ
  z : ℚ
  w : ℚ
deriving DecidableEq

/-- Hamilton product of two quaternions. -/
def quatMul (a b : Quat) : Quat :=
  { x := a.w * b.x + a.x * b.w + a.y * b.z - a.z * b.y
    y := a.w * b.y + a.y * b.w + a.z * b.x - a.x * b.z
    z := a.w * b.z + a.z * b.w + a.x * b.y - a.y * b.x
    w := a.w * b.w - a.x * b.x - a.y * b.y - a.z * b.z }

/-- Quaternion conjugate; for unit quaternions this is the inverse rotation. -/
def quatConj (q : Quat) : Quat :=
  { x := -q.x, y := -q.y, z := -q.z, w := q.w }

/-- The identity rotation. -/
def quatIdentity : Quat := { x := 0, y := 0, z := 0, w := 1 }

/-- Rotate a vector by a (unit) quaternion: the vector part of `q * v * conj q`. -/
def quatRotate (q : Quat) (v : Vec3) : Vec3 :=
  let p : Quat := { x := v.x, y := v.y, z := v.z, w := 0 }
  let r := quatMul (quatMul q p) (quatConj q)
  { x := r.x, y := r.y, z := r.z }

/-- Componentwise vector difference. -/
def Vec3.sub (a b : Vec3) : Vec3 := { x := a.x - b.x, y := a.y - b.y, z := a.z - b.z }

/-- A rigid transform (`tf2::Transform`): a rotation and a translation. -/
structure Transform where
  rot : Quat
  origin : Vec3
deriving DecidableEq

/-- The identity transform. -/
def Transform.identityTF : Transform := { rot := quatIdentity, origin := ⟨0, 0, 0⟩ }

/-- `tf2::Transform::inverseTimes`: `this⁻¹ * t`.  For a rigid transform with a
unit rotation quaternion the inverse rotation is the conjugate, and the
resulting translation is the rotated difference of the origins. -/
def Transform.inverseTimes (t1 t2 : Transform) : Transform :=
  { rot := quatMul (quatConj t1.rot) t2.rot
    origin := quatRotate (quatConj t1.rot) (Vec3.sub t2.origin t1.origin) }

/-- `graspdb::Pose`: a robot-fixed frame identifier, a position and an
orientation. -/
structure Pose where
  robotFixedFrameID : String
  position : Vec3
  orientation : Quat
deriving DecidableEq

/-- `graspdb::Pose::toTF2Transform`. -/
def Pose.toTF2Transform (p : Pose) : Transform :=
  { rot := p.orientation, origin := p.position }

/-- The `graspdb::Pose(frame_id, tf2::Transform)` constructor. -/
def Pose.ofTransform (fid : String) (t : Transform) : Pose :=
  { robotFixedFrameID := fid, position := t.origin, orientation := t.rot }

/-- `geometry_msgs::PoseStamped`, with the header reduced to its frame id. -/
structure PoseStamped where
  frameID : String
  position : Vec3
  orientation : Quat
deriving DecidableEq

/-- `graspdb::Pose::toROSPoseStampedMessage`: the stamped pose carries the
robot-fixed frame id of the pose. -/
def Pose.toROSPoseStampedMessage (p : Pose) : PoseStamped :=
  { frameID := p.robotFixedFrameID, position := p.position, orientation := p.orientation }

/-- `graspdb::Grasp`: a grasp pose with success statistics. -/
structure Grasp where
  id : Nat
  graspPose : Pose
  eefFrameID : String
  successes : Nat
  attempts : Nat
  created : Nat
deriving DecidableEq

/-- Modelled from the spec: `graspdb::Grasp::getSuccessRate` (the graspdb
package sources are not under `src/`): the success rate is
`successes/attempts` when `attempts > 0` and `0` otherwise. -/
def Grasp.getSuccessRate (g : Grasp) : ℚ :=
  if g.attempts > 0 then (g.successes : ℚ) / (g.attempts : ℚ) else 0

/-- Oracle record for the external registration metrics of one candidate
against the (fixed, preprocessed) observed cloud: the ICP alignment transform
and the three registration metrics computed from the aligned clouds. -/
structure RegMetrics where
  icpTF : Transform
  overlap : ℚ
  distanceError : ℚ
  colorError : ℚ
deriving DecidableEq

/-- `graspdb::GraspModel`, with the external library calls on its point cloud
(size of the serialized data, per-channel average colors, registration metrics
against the observed cloud) recorded as oracle fields. -/
structure GraspModel where
  id : Nat
  objectName : String
  cloudSize : Nat
  avgR : ℚ
  avgG : ℚ
  avgB : ℚ
  metrics : RegMetrics
  grasps : List Grasp
deriving DecidableEq

/-- `rail_manipulation_msgs::SegmentedObject`, reduced to the fields the
recognizer reads or writes.  The serialized point-cloud payload is kept as a
byte list (only emptiness is inspected). -/
structure SegmentedObject where
  pointCloudData : List Nat
  pointCloudFrameID : String
  centroid : Vec3
  name : String
  modelID : Nat
  confidence : ℚ
  recognized : Bool
  orientation : Quat
  grasps : List PoseStamped
deriving DecidableEq

/-- The configuration constants of `PointCloudRecognizer.h`. -/
structure Config where
  colorThreshold : ℚ
  scoreConfidenceThreshold : ℚ
  alpha : ℚ
deriving DecidableEq

/-- `PointCloudRecognizer::scoreRegistration`: reject when the overlap metric
is below `0.75` (sentinel score `-1`); otherwise the weighted combination of
the distance and color errors.  The returned transform is the ICP result in
either case (the out-parameter `tf_icp` is assigned before the overlap
check). -/
def scoreRegistration (cfg : Config) (m : RegMetrics) : ℚ × Transform :=
  if m.overlap < 3/4 then
    (-1, m.icpTF)
  else
    (cfg.alpha * (3 * m.distanceError) + (1 - cfg.alpha) * (m.colorError / 100), m.icpTF)

/-- The running-best state of the candidate loop of `recognizeObject`
(`min_score`, `min_index`, `min_icp_tf`; the candidate itself is carried along
because the candidate list is immutable and `candidates[min_index]` is read
after the loop).  `none` is the initial state `min_score = +infinity`. -/
structure BestMatch where
  minScore : ℚ
  minIndex : Nat
  minIcpTF : Transform
  minCand : GraspModel
deriving DecidableEq

/-- `score < min_score`, with `min_score = +infinity` when no candidate has
been retained yet. -/
def beatsMin (s : ℚ) : Option BestMatch → Bool
  | none => true
  | some b => decide (s < b.minScore)

/-- One iteration of the candidate loop of `recognizeObject` (lines 57-83):
skip a candidate with no stored cloud, skip a candidate failing the
per-channel average-color check, otherwise score the registration and keep it
when `score >= 0 && score < min_score`. -/
def considerCandidate (cfg : Config) (objR objG objB : ℚ) (best : Option BestMatch)
    (i : Nat) (c : GraspModel) : Option BestMatch :=
  if c.cloudSize > 0 then
    if |objR - c.avgR| > cfg.colorThreshold ∨ |objG - c.avgG| > cfg.colorThreshold ∨
        |objB - c.avgB| > cfg.colorThreshold then
      best
    else
      let s := (scoreRegistration cfg c.metrics).1
      if 0 ≤ s ∧ beatsMin s best = true then
        some { minScore := s, minIndex := i, minIcpTF := (scoreRegistration cfg c.metrics).2,
               minCand := c }
      else
        best
  else
    best

/-- The candidate loop of `recognizeObject`, iterating in list order with the
running index `i`. -/
def selectLoop (cfg : Config) (objR objG objB : ℚ) :
    Nat → List GraspModel → Option BestMatch → Option BestMatch
  | _, [], best => best
  | i, c :: rest, best =>
    selectLoop cfg objR objG objB (i + 1) rest (considerCandidate cfg objR objG objB best i c)

/-- The whole candidate-selection phase of `recognizeObject`. -/
def selectBest (cfg : Config) (objR objG objB : ℚ) (candidates : List GraspModel) :
    Option BestMatch :=
  selectLoop cfg objR objG objB 0 candidates none

/-- The score a candidate receives when it is evaluated. -/
def candScore (cfg : Config) (c : GraspModel) : ℚ := (scoreRegistration cfg c.metrics).1

/-- A candidate is evaluated and not rejected: it has a stored cloud, it passes
the average-color check, and its registration score is not the rejection
sentinel (`score >= 0`). -/
def acceptedB (cfg : Config) (objR objG objB : ℚ) (c : GraspModel) : Bool :=
  decide (c.cloudSize > 0) &&
  !(decide (|objR - c.avgR| > cfg.colorThreshold) ||
    decide (|objG - c.avgG| > cfg.colorThreshold) ||
    decide (|objB - c.avgB| > cfg.colorThreshold)) &&
  decide (0 ≤ candScore cfg c)

/-- The scores of the evaluated, non-rejected candidates, in list order. -/
def acceptedScores (cfg : Config) (objR objG objB : ℚ) (cands : List GraspModel) : List ℚ :=
  (cands.filter (acceptedB cfg objR objG objB)).map (candScore cfg)

/-- The grasp-retention check of `recognizeObject` line 114:
`rate > 0 || attempts == 0`. -/
def keepGrasp (g : Grasp) : Bool :=
  decide (g.getSuccessRate > 0) || decide (g.attempts = 0)

/-- The stamped pose emitted for a grasp: its pose as a ROS stamped pose with
the header frame id overwritten by the observed cloud's frame id
(lines 109-111). -/
def rankedPose (frameID : String) (g : Grasp) : PoseStamped :=
  { g.graspPose.toROSPoseStampedMessage with frameID := frameID }

/-- The in-place ordered insertion of lines 116-133: scan the current list and
insert immediately before the first entry `e` with `rate <= e.rate`, else
append.  The two parallel vectors (`object.grasps` and `success_rates`) are
modelled as one list of (rate, pose) pairs; the source inserts into both at
the same position. -/
def insertByRate (rate : ℚ) (pose : PoseStamped) :
    List (ℚ × PoseStamped) → List (ℚ × PoseStamped)
  | [] => [(rate, pose)]
  | e :: rest =>
    if rate ≤ e.1 then (rate, pose) :: e :: rest
    else e :: insertByRate rate pose rest

/-- One iteration of the ranking loop of `recognizeObject` (lines 106-135). -/
def rankStep (frameID : String) (acc : List (ℚ × PoseStamped)) (g : Grasp) :
    List (ℚ × PoseStamped) :=
  if keepGrasp g then insertByRate g.getSuccessRate (rankedPose frameID g) acc else acc

/-- The whole ranking loop, starting from the cleared grasp list. -/
def rankGrasps (frameID : String) (gs : List Grasp) : List (ℚ × PoseStamped) :=
  gs.foldl (rankStep frameID) []

/-- The body of the loop of `PointCloudRecognizer::computeGraspList`
(lines 170-188): convert the grasp pose to a transform, compose with the
inverse of the ICP transform, add the centroid to the translation, and write
the result back as the grasp's pose (keeping its robot-fixed frame id). -/
def transferGrasp (tf_icp : Transform) (centroid : Vec3) (g : Grasp) : Grasp :=
  let tf_pose := g.graspPose.toTF2Transform
  let result0 := tf_icp.inverseTimes tf_pose
  let result : Transform :=
    { result0 with
        origin := { x := result0.origin.x + centroid.x
                    y := result0.origin.y + centroid.y
                    z := result0.origin.z + centroid.z } }
  { g with graspPose := Pose.ofTransform g.graspPose.robotFixedFrameID result }

/-- `PointCloudRecognizer::computeGraspList`: clear the output list and
transfer every candidate grasp in order. -/
def computeGraspList (tf_icp : Transform) (centroid : Vec3)
    (candidate_grasps : List Grasp) : List Grasp :=
  candidate_grasps.map (transferGrasp tf_icp centroid)

/-- The record update of `recognizeObject` lines 92-135, applied on success:
name, model id, confidence and the recognized flag are written, line 97
assigns only the `w` component of the orientation, the grasp list is cleared
and refilled with the ranked transferred poses. -/
def successRecord (object : SegmentedObject) (b : BestMatch) : SegmentedObject :=
  { object with
      name := b.minCand.objectName
      modelID := b.minCand.id
      confidence := b.minScore
      recognized := true
      orientation := { object.orientation with w := 1 }
      grasps := (rankGrasps object.pointCloudFrameID
        (computeGraspList b.minIcpTF object.centroid b.minCand.grasps)).map Prod.snd }

/-- `PointCloudRecognizer::recognizeObject`.  Returns the boolean result and
the (possibly updated) observed object.  `objR`/`objG`/`objB` are the oracle
results of `calculateAvgColors` on the preprocessed observed cloud.  On the
three failure paths (empty candidate list, empty observed cloud, minimum score
above the confidence threshold) the object is returned unchanged. -/
def recognizeObject (cfg : Config) (objR objG objB : ℚ) (object : SegmentedObject)
    (candidates : List GraspModel) : Bool × SegmentedObject :=
  if candidates.isEmpty then
    (false, object)
  else if object.pointCloudData.isEmpty then
    (false, object)
  else
    match selectBest cfg objR objG objB candidates with
    | none => (false, object)
    | some b =>
      if b.minScore > cfg.scoreConfidenceThreshold then
        (false, object)
      else
        (true, successRecord object b)

/-- Invariant of the candidate loop after the first `seen` candidates: the
running best is `none` exactly when no candidate so far was accepted, and
otherwise it records an accepted candidate attaining the minimum score so far,
with every *strictly earlier* accepted candidate scoring strictly worse. -/
def GoodBest (cfg : Config) (objR objG objB : ℚ) (cands : List GraspModel) (seen : Nat)
    (best : Option BestMatch) : Prop :=
  match best with
  | none =>
    ∀ j (hj : j < cands.length), j < seen →
      acceptedB cfg objR objG objB (cands.get ⟨j, hj⟩) = false
  | some b =>
    ∃ hi : b.minIndex < cands.length,
      b.minIndex < seen ∧
      cands.get ⟨b.minIndex, hi⟩ = b.minCand ∧
      acceptedB cfg objR objG objB b.minCand = true ∧
      candScore cfg b.minCand = b.minScore ∧
      b.minIcpTF = b.minCand.metrics.icpTF ∧
      (∀ j (hj : j < cands.length), j < seen →
        acceptedB cfg objR objG objB (cands.get ⟨j, hj⟩) = true →
        b.minScore ≤ candScore cfg (cands.get ⟨j, hj⟩)) ∧
      (∀ j (hj : j < cands.length), j < b.minIndex →
        acceptedB cfg objR objG objB (cands.get ⟨j, hj⟩) = true →
        b.minScore < candScore cfg (cands.get ⟨j, hj⟩))

/-! ### Concrete sample inputs used by witnesses and counterexamples -/

/-- A camera frame identifier for the observed cloud. -/
def frameA : String := "camera_link"

/-- An end-effector frame identifier. -/
def eefA : String := "eef_link"

/-- A recognized object name. -/
def nameA : String := "bowl"

/-- A sample grasp pose, position (1,0,0). -/
def poseA : Pose :=
  { robotFixedFrameID := frameA, position := ⟨1, 0, 0⟩, orientation := quatIdentity }

/-- A sample grasp pose, position (2,0,0). -/
def poseB : Pose :=
  { robotFixedFrameID := frameA, position := ⟨2, 0, 0⟩, orientation := quatIdentity }

/-- A grasp with success rate 1/2. -/
def graspA : Grasp :=
  { id := 1, graspPose := poseA, eefFrameID := eefA, successes := 1, attempts := 2, created := 0 }

/-- A second grasp with the same success rate 1/2 but a different pose. -/
def graspB : Grasp :=
  { id := 2, graspPose := poseB, eefFrameID := eefA, successes := 1, attempts := 2, created := 0 }

/-- A grasp attempted five times and never successful. -/
def graspFailed : Grasp :=
  { id := 3, graspPose := poseA, eefFrameID := eefA, successes := 0, attempts := 5, created := 0 }

/-- A grasp never attempted. -/
def graspUntested : Grasp :=
  { id := 4, graspPose := poseB, eefFrameID := eefA, successes := 0, attempts := 0, created := 0 }

/-- A sample configuration: color threshold 0.1, confidence threshold 2, alpha 0.5. -/
def cfg0 : Config := { colorThreshold := 1/10, scoreConfidenceThreshold := 2, alpha := 1/2 }

/-- Sample registration metrics: full overlap, distance error 0.5, color error
10, giving score 1/2 * (3 * 1/2) + 1/2 * (10/100) = 4/5. -/
def metrics0 : RegMetrics :=
  { icpTF := Transform.identityTF, overlap := 1, distanceError := 1/2, colorError := 10 }

/-- Sample registration metrics with overlap below the 0.75 cutoff. -/
def lowOverlapMetrics : RegMetrics :=
  { icpTF := Transform.identityTF, overlap := 1/2, distanceError := 0, colorError := 0 }

/-- A sample candidate model scoring 4/5 against the observed object. -/
def cand0 : GraspModel :=
  { id := 7, objectName := nameA, cloudSize := 4, avgR := 0, avgG := 0, avgB := 0,
    metrics := metrics0, grasps := [graspA] }

/-- A second candidate identical to `cand0` except for its id: same score. -/
def cand1 : GraspModel :=
  { id := 8, objectName := nameA, cloudSize := 4, avgR := 0, avgG := 0, avgB := 0,
    metrics := metrics0, grasps := [graspB] }

/-- A sample observed object whose caller-passed orientation is (1,0,0,0). -/
def objQ : SegmentedObject :=
  { pointCloudData := [1], pointCloudFrameID := frameA, centroid := ⟨0, 0, 0⟩,
    name := "", modelID := 0, confidence := 0, recognized := false,
    orientation := ⟨1, 0, 0, 0⟩, grasps := [] }

/-- The best match the selection loop finds for `[cand0]` (and, by the
first-wins tie-break, also for `[cand0, cand1]`). -/
def best0 : BestMatch :=
  { minScore := 4/5, minIndex := 0, minIcpTF := Transform.identityTF, minCand := cand0 }

/-! ### Identity-transform facts used by the grasp-transfer claims -/

theorem quatConj_identity : quatConj quatIdentity = quatIdentity := by
  simp [quatConj, quatIdentity]

theorem quatMul_identity_left (q : Quat) : quatMul quatIdentity q = q := by
  cases q
  simp only [quatMul, quatIdentity, Quat.mk.injEq]
  refine ⟨by ring, by ring, by ring, by ring⟩

theorem quatMul_identity_right (q : Quat) : quatMul q quatIdentity = q := by
  cases q
  simp only [quatMul, quatIdentity, Quat.mk.injEq]
  refine ⟨by ring, by ring, by ring, by ring⟩

theorem quatRotate_identity (v : Vec3) : quatRotate quatIdentity v = v := by
  cases v
  simp only [quatRotate, quatConj_identity, quatMul_identity_left, quatMul_identity_right]

theorem Vec3.sub_zero_vec (v : Vec3) : Vec3.sub v ⟨0, 0, 0⟩ = v := by
  cases v
  simp [Vec3.sub]

theorem inverseTimes_identity_left (t : Transform) :
    Transform.identityTF.inverseTimes t = t := by
  cases t
  simp [Transform.inverseTimes, Transform.identityTF, quatConj_identity,
    quatMul_identity_left, Vec3.sub_zero_vec, quatRotate_identity]

theorem transferGrasp_identity (g : Grasp) :
    transferGrasp Transform.identityTF ⟨0, 0, 0⟩ g = g := by
  obtain ⟨i, ⟨fid, p, q⟩, eef, s, a, cr⟩ := g
  simp only [transferGrasp, inverseTimes_identity_left, Pose.toTF2Transform, Pose.ofTransform]
  cases p
  simp

/-- C6: with the identity alignment transform and the zero centroid, the
grasp-transfer step returns every grasp exactly as it came in; in particular
every output grasp pose equals the corresponding input grasp pose in both
position and orientation. -/
theorem computeGraspList_identity_roundtrip (gs : List Grasp) :
    computeGraspList Transform.identityTF ⟨0, 0, 0⟩ gs = gs := by
  unfold computeGraspList
  induction gs with
  | nil => rfl
  | cons g rest ih => simp [transferGrasp_identity, ih]

/-- C7: the grasp-transfer step rewrites only the pose: the identifier,
end-effector frame id, success count, attempt count and creation timestamp of
every grasp are unchanged, the output has one entry per input grasp in the
same order, and the pose's robot-fixed frame id is also kept. -/
theorem computeGraspList_preserves_fields (tf : Transform) (centroid : Vec3) (gs : List Grasp) :
    (computeGraspList tf centroid gs).length = gs.length ∧
    (computeGraspList tf centroid gs).map
        (fun g => (g.id, g.eefFrameID, g.successes, g.attempts, g.created,
          g.graspPose.robotFixedFrameID)) =
      gs.map (fun g => (g.id, g.eefFrameID, g.successes, g.attempts, g.created,
        g.graspPose.robotFixedFrameID)) := by
  constructor
  · simp [computeGraspList]
  · unfold computeGraspList
    induction gs with
    | nil => rfl
    | cons g rest ih =>
      simp only [List.map_cons, List.cons.injEq]
      exact ⟨rfl, ih⟩

/-! ### The candidate-selection invariant -/

theorem scoreRegistration_snd (cfg : Config) (m : RegMetrics) :
    (scoreRegistration cfg m).2 = m.icpTF := by
  unfold scoreRegistration
  split <;> rfl

theorem acceptedB_iff (cfg : Config) (objR objG objB : ℚ) (c : GraspModel) :
    acceptedB cfg objR objG objB c = true ↔
      (c.cloudSize > 0 ∧
        ¬(|objR - c.avgR| > cfg.colorThreshold ∨ |objG - c.avgG| > cfg.colorThreshold ∨
          |objB - c.avgB| > cfg.colorThreshold) ∧
        0 ≤ candScore cfg c) := by
  simp [acceptedB, candScore, not_or]
  tauto

theorem goodBest_extend (cfg : Config) (objR objG objB : ℚ) (cands : List GraspModel)
    (seen : Nat) (best : Option BestMatch) (hseen : seen < cands.length)
    (hgood : GoodBest cfg objR objG objB cands seen best)
    (hc : acceptedB cfg objR objG objB (cands.get ⟨seen, hseen⟩) = true →
      ∃ b, best = some b ∧ b.minScore ≤ candScore cfg (cands.get ⟨seen, hseen⟩)) :
    GoodBest cfg objR objG objB cands (seen + 1) best := by
  cases best with
  | none =>
    intro j hj hjseen
    by_cases hje : j = seen
    · subst hje
      by_contra hacc
      rw [Bool.not_eq_false] at hacc
      obtain ⟨b, hb, _⟩ := hc hacc
      cases hb
    · exact hgood j hj (by omega)
  | some b =>
    obtain ⟨hi, hlt, hget, hacc, hscore, htf, hall, hfirst⟩ := hgood
    refine ⟨hi, by omega, hget, hacc, hscore, htf, ?_, hfirst⟩
    intro j hj hjseen haccj
    by_cases hje : j = seen
    · subst hje
      obtain ⟨b', hb', hle⟩ := hc haccj
      injection hb' with hb''
      subst hb''
      exact hle
    · exact hall j hj (by omega) haccj

theorem goodBest_new (cfg : Config) (objR objG objB : ℚ) (cands : List GraspModel)
    (seen : Nat) (best : Option BestMatch) (hseen : seen < cands.length)
    (hgood : GoodBest cfg objR objG objB cands seen best)
    (hacc : acceptedB cfg objR objG objB (cands.get ⟨seen, hseen⟩) = true)
    (hbeats : beatsMin (candScore cfg (cands.get ⟨seen, hseen⟩)) best = true) :
    GoodBest cfg objR objG objB cands (seen + 1)
      (some { minScore := candScore cfg (cands.get ⟨seen, hseen⟩), minIndex := seen,
              minIcpTF := (cands.get ⟨seen, hseen⟩).metrics.icpTF,
              minCand := cands.get ⟨seen, hseen⟩ }) := by
  refine ⟨hseen, Nat.lt_succ_self seen, rfl, hacc, rfl, rfl, ?_, ?_⟩
  · intro j hj hjseen haccj
    by_cases hje : j = seen
    · subst hje
      exact le_refl _
    · have hjlt : j < seen := by omega
      cases best with
      | none =>
        have hf := hgood j hj hjlt
        rw [hf] at haccj
        exact Bool.noConfusion haccj
      | some b =>
        have hlt : candScore cfg (cands.get ⟨seen, hseen⟩) < b.minScore := by
          simpa [beatsMin] using hbeats
        obtain ⟨_, _, _, _, _, _, hall, _⟩ := hgood
        exact le_of_lt (lt_of_lt_of_le hlt (hall j hj hjlt haccj))
  · intro j hj hjlt haccj
    have hjlt' : j < seen := hjlt
    cases best with
    | none =>
      have hf := hgood j hj hjlt'
      rw [hf] at haccj
      exact Bool.noConfusion haccj
    | some b =>
      have hlt : candScore cfg (cands.get ⟨seen, hseen⟩) < b.minScore := by
        simpa [beatsMin] using hbeats
      obtain ⟨_, _, _, _, _, _, hall, _⟩ := hgood
      exact lt_of_lt_of_le hlt (hall j hj hjlt' haccj)

theorem goodBest_step (cfg : Config) (objR objG objB : ℚ) (cands : List GraspModel)
    (seen : Nat) (best : Option BestMatch) (hseen : seen < cands.length)
    (hgood : GoodBest cfg objR objG objB cands seen best) :
    GoodBest cfg objR objG objB cands (seen + 1)
      (considerCandidate cfg objR objG objB best seen (cands.get ⟨seen, hseen⟩)) := by
  by_cases h1 : (cands.get ⟨seen, hseen⟩).cloudSize > 0
  · by_cases h2 : |objR - (cands.get ⟨seen, hseen⟩).avgR| > cfg.colorThreshold ∨
        |objG - (cands.get ⟨seen, hseen⟩).avgG| > cfg.colorThreshold ∨
        |objB - (cands.get ⟨seen, hseen⟩).avgB| > cfg.colorThreshold
    · -- color rejection: the candidate is not accepted
      have hrw : considerCandidate cfg objR objG objB best seen (cands.get ⟨seen, hseen⟩) =
          best := by
        simp only [considerCandidate]
        rw [if_pos h1, if_pos h2]
      rw [hrw]
      refine goodBest_extend cfg objR objG objB cands seen best hseen hgood ?_
      intro hacc
      rw [acceptedB_iff] at hacc
      exact absurd h2 hacc.2.1
    · by_cases h3 : 0 ≤ (scoreRegistration cfg (cands.get ⟨seen, hseen⟩).metrics).1 ∧
          beatsMin (scoreRegistration cfg (cands.get ⟨seen, hseen⟩).metrics).1 best = true
      · -- strict improvement: new running best
        have hrw : considerCandidate cfg objR objG objB best seen (cands.get ⟨seen, hseen⟩) =
            some { minScore := candScore cfg (cands.get ⟨seen, hseen⟩), minIndex := seen,
                   minIcpTF := (cands.get ⟨seen, hseen⟩).metrics.icpTF,
                   minCand := cands.get ⟨seen, hseen⟩ } := by
          simp only [considerCandidate]
          rw [if_pos h1, if_neg h2, if_pos h3, scoreRegistration_snd]
          rfl
        rw [hrw]
        exact goodBest_new cfg objR objG objB cands seen best hseen hgood
          (by rw [acceptedB_iff]; exact ⟨h1, h2, h3.1⟩) h3.2
      · -- no improvement: the previous best already scores at most as well
        have hrw : considerCandidate cfg objR objG objB best seen (cands.get ⟨seen, hseen⟩) =
            best := by
          simp only [considerCandidate]
          rw [if_pos h1, if_neg h2, if_neg h3]
        rw [hrw]
        refine goodBest_extend cfg objR objG objB cands seen best hseen hgood ?_
        intro hacc
        have h0 : 0 ≤ candScore cfg (cands.get ⟨seen, hseen⟩) :=
          ((acceptedB_iff cfg objR objG objB _).mp hacc).2.2
        cases best with
        | none => exact absurd ⟨h0, rfl⟩ h3
        | some b =>
          refine ⟨b, rfl, ?_⟩
          by_contra hlt
          push_neg at hlt
          exact h3 ⟨h0, by simpa [beatsMin] using hlt⟩
  · -- empty candidate cloud: not accepted
    have hrw : considerCandidate cfg objR objG objB best seen (cands.get ⟨seen, hseen⟩) =
        best := by
      simp only [considerCandidate]
      rw [if_neg h1]
    rw [hrw]
    refine goodBest_extend cfg objR objG objB cands seen best hseen hgood ?_
    intro hacc
    rw [acceptedB_iff] at hacc
    exact absurd hacc.1 h1

theorem goodBest_clamp (cfg : Config) (objR objG objB : ℚ) (cands : List GraspModel)
    (seen : Nat) (best : Option BestMatch) (hle : cands.length ≤ seen)
    (hgood : GoodBest cfg objR objG objB cands seen best) :
    GoodBest cfg objR objG objB cands cands.length best := by
  cases best with
  | none => exact fun j hj _ => hgood j hj (by omega)
  | some b =>
    obtain ⟨hi, _, hget, hacc, hscore, htf, hall, hfirst⟩ := hgood
    exact ⟨hi, hi, hget, hacc, hscore, htf,
      fun j hj _ haccj => hall j hj (by omega) haccj, hfirst⟩

theorem drop_cons_facts {α : Type} (cands : List α) (seen : Nat) (c : α) (rest : List α)
    (h : cands.drop seen = c :: rest) :
    ∃ hseen : seen < cands.length, cands.get ⟨seen, hseen⟩ = c ∧
      cands.drop (seen + 1) = rest := by
  induction cands generalizing seen with
  | nil => simp at h
  | cons a l ih =>
    cases seen with
    | zero =>
      simp only [List.drop] at h
      cases h
      exact ⟨by simp, rfl, rfl⟩
    | succ n =>
      obtain ⟨hn, hget, hdrop⟩ := ih n h
      exact ⟨by simpa using Nat.succ_lt_succ hn, hget, hdrop⟩

theorem goodBest_loop (cfg : Config) (objR objG objB : ℚ) (cands : List GraspModel) :
    ∀ (l : List GraspModel) (seen : Nat) (best : Option BestMatch),
      cands.drop seen = l →
      GoodBest cfg objR objG objB cands seen best →
      GoodBest cfg objR objG objB cands cands.length
        (selectLoop cfg objR objG objB seen l best)
  | [], seen, best, hdrop, hgood => by
    have hlen : (cands.drop seen).length = 0 := by rw [hdrop]; rfl
    rw [List.length_drop] at hlen
    exact goodBest_clamp cfg objR objG objB cands seen best (by omega) hgood
  | c :: rest, seen, best, hdrop, hgood => by
    obtain ⟨hseen, hget, hdrop'⟩ := drop_cons_facts cands seen c rest hdrop
    have hstep := goodBest_step cfg objR objG objB cands seen best hseen hgood
    rw [hget] at hstep
    exact goodBest_loop cfg objR objG objB cands rest (seen + 1) _ hdrop' hstep

theorem selectBest_good (cfg : Config) (objR objG objB : ℚ) (cands : List GraspModel) :
    GoodBest cfg objR objG objB cands cands.length (selectBest cfg objR objG objB cands) :=
  goodBest_loop cfg objR objG objB cands cands 0 none rfl (fun j hj h => by omega)

theorem selectBest_some_spec (cfg : Config) (objR objG objB : ℚ) (cands : List GraspModel)
    (b : BestMatch) (h : selectBest cfg objR objG objB cands = some b) :
    ∃ hi : b.minIndex < cands.length,
      cands.get ⟨b.minIndex, hi⟩ = b.minCand ∧
      acceptedB cfg objR objG objB b.minCand = true ∧
      candScore cfg b.minCand = b.minScore ∧
      b.minIcpTF = b.minCand.metrics.icpTF ∧
      (∀ j (hj : j < cands.length),
        acceptedB cfg objR objG objB (cands.get ⟨j, hj⟩) = true →
        b.minScore ≤ candScore cfg (cands.get ⟨j, hj⟩)) ∧
      (∀ j (hj : j < cands.length), j < b.minIndex →
        acceptedB cfg objR objG objB (cands.get ⟨j, hj⟩) = true →
        b.minScore < candScore cfg (cands.get ⟨j, hj⟩)) := by
  have hgood := selectBest_good cfg objR objG objB cands
  rw [h] at hgood
  obtain ⟨hi, _, hget, hacc, hscore, htf, hall, hfirst⟩ := hgood
  exact ⟨hi, hget, hacc, hscore, htf, fun j hj haccj => hall j hj hj haccj, hfirst⟩

theorem selectBest_none_spec (cfg : Config) (objR objG objB : ℚ) (cands : List GraspModel)
    (h : selectBest cfg objR objG objB cands = none) :
    ∀ c ∈ cands, acceptedB cfg objR objG objB c = false := by
  have hgood := selectBest_good cfg objR objG objB cands
  rw [h] at hgood
  intro c hc
  obtain ⟨n, hn⟩ := List.mem_iff_get.mp hc
  have := hgood n.1 n.2 n.2
  rwa [hn] at this

theorem selectBest_minScore_min (cfg : Config) (objR objG objB : ℚ) (cands : List GraspModel)
    (b : BestMatch) (h : selectBest cfg objR objG objB cands = some b) :
    b.minScore ∈ acceptedScores cfg objR objG objB cands ∧
    ∀ s ∈ acceptedScores cfg objR objG objB cands, b.minScore ≤ s := by
  obtain ⟨hi, hget, hacc, hscore, _, hall, _⟩ :=
    selectBest_some_spec cfg objR objG objB cands b h
  constructor
  · rw [← hscore]
    exact List.mem_map_of_mem _ (List.mem_filter.mpr ⟨hget ▸ List.get_mem cands _ hi, hacc⟩)
  · intro s hs
    obtain ⟨c, hcf, hcs⟩ := List.mem_map.mp hs
    obtain ⟨hcm, hca⟩ := List.mem_filter.mp hcf
    obtain ⟨n, hn⟩ := List.mem_iff_get.mp hcm
    subst hcs
    have := hall n.1 n.2 (by rwa [hn])
    rwa [hn] at this

/-! ### Shape lemmas for `recognizeObject` -/

theorem recognizeObject_none (cfg : Config) (objR objG objB : ℚ)
    (object : SegmentedObject) (candidates : List GraspModel)
    (hc : candidates.isEmpty = false) (hp : object.pointCloudData.isEmpty = false)
    (hsel : selectBest cfg objR objG objB candidates = none) :
    recognizeObject cfg objR objG objB object candidates = (false, object) := by
  simp [recognizeObject, hc, hp, hsel]

theorem recognizeObject_some (cfg : Config) (objR objG objB : ℚ)
    (object : SegmentedObject) (candidates : List GraspModel) (b : BestMatch)
    (hc : candidates.isEmpty = false) (hp : object.pointCloudData.isEmpty = false)
    (hsel : selectBest cfg objR objG objB candidates = some b) :
    recognizeObject cfg objR objG objB object candidates =
      if b.minScore > cfg.scoreConfidenceThreshold then (false, object)
      else (true, successRecord object b) := by
  simp [recognizeObject, hc, hp, hsel]

/-- C1: on every failure path — empty candidate list, empty observed point
cloud, or no evaluated candidate scoring within the confidence threshold —
`recognizeObject` returns `false` and the observed object record is returned
exactly as passed in (no field is mutated). -/
theorem recognizeObject_failure_unchanged (cfg : Config) (objR objG objB : ℚ)
    (object : SegmentedObject) (candidates : List GraspModel)
    (h : candidates = [] ∨ object.pointCloudData = [] ∨
      ∀ s ∈ acceptedScores cfg objR objG objB candidates, cfg.scoreConfidenceThreshold < s) :
    recognizeObject cfg objR objG objB object candidates = (false, object) := by
  by_cases hc : candidates.isEmpty = true
  · simp [recognizeObject, hc]
  · rw [Bool.not_eq_true] at hc
    by_cases hp : object.pointCloudData.isEmpty = true
    · simp [recognizeObject, hc, hp]
    · rw [Bool.not_eq_true] at hp
      rcases h with h | h | h
      · rw [h] at hc
        simp at hc
      · rw [h] at hp
        simp at hp
      · cases hsel : selectBest cfg objR objG objB candidates with
        | none => exact recognizeObject_none cfg objR objG objB object candidates hc hp hsel
        | some b =>
          have hgt : cfg.scoreConfidenceThreshold < b.minScore :=
            h _ (selectBest_minScore_min cfg objR objG objB candidates b hsel).1
          rw [recognizeObject_some cfg objR objG objB object candidates b hc hp hsel,
            if_pos hgt]

/-- C2: for a non-empty observed cloud and a non-empty candidate list, the
call succeeds precisely when some evaluated, non-rejected candidate score is a
minimum of all such scores and lies within the confidence threshold (so it
fails when no candidate was evaluated at all), and on success the confidence
written into the record is that minimum. -/
theorem recognizeObject_confidence_min (cfg : Config) (objR objG objB : ℚ)
    (object : SegmentedObject) (candidates : List GraspModel)
    (h1 : candidates ≠ []) (h2 : object.pointCloudData ≠ []) :
    ((recognizeObject cfg objR objG objB object candidates).1 = true ↔
      ∃ m ∈ acceptedScores cfg objR objG objB candidates,
        (∀ s ∈ acceptedScores cfg objR objG objB candidates, m ≤ s) ∧
        m ≤ cfg.scoreConfidenceThreshold) ∧
    ((recognizeObject cfg objR objG objB object candidates).1 = true →
      (recognizeObject cfg objR objG objB object candidates).2.confidence ∈
          acceptedScores cfg objR objG objB candidates ∧
        ∀ s ∈ acceptedScores cfg objR objG objB candidates,
          (recognizeObject cfg objR objG objB object candidates).2.confidence ≤ s) := by
  have hc : candidates.isEmpty = false := by
    cases candidates with
    | nil => exact absurd rfl h1
    | cons a l => rfl
  have hp : object.pointCloudData.isEmpty = false := by
    cases hpc : object.pointCloudData with
    | nil => exact absurd hpc h2
    | cons a l => rfl
  cases hsel : selectBest cfg objR objG objB candidates with
  | none =>
    rw [recognizeObject_none cfg objR objG objB object candidates hc hp hsel]
    constructor
    · constructor
      · intro hfalse
        exact absurd hfalse (by simp)
      · rintro ⟨m, hm, _, _⟩
        obtain ⟨c, hcf, _⟩ := List.mem_map.mp hm
        obtain ⟨hcm, hca⟩ := List.mem_filter.mp hcf
        rw [selectBest_none_spec cfg objR objG objB candidates hsel c hcm] at hca
        exact Bool.noConfusion hca
    · intro hfalse
      exact absurd hfalse (by simp)
  | some b =>
    rw [recognizeObject_some cfg objR objG objB object candidates b hc hp hsel]
    have hmin := selectBest_minScore_min cfg objR objG objB candidates b hsel
    by_cases ht : b.minScore > cfg.scoreConfidenceThreshold
    · rw [if_pos ht]
      constructor
      · constructor
        · intro hfalse
          exact absurd hfalse (by simp)
        · rintro ⟨m, hm, hmle, hmth⟩
          have : b.minScore ≤ m := hmin.2 m hm
          exact absurd hmth (by push_neg; exact lt_of_lt_of_le ht this)
      · intro hfalse
        exact absurd hfalse (by simp)
    · rw [if_neg ht]
      push_neg at ht
      refine ⟨⟨fun _ => ⟨b.minScore, hmin.1, hmin.2, ht⟩, fun _ => rfl⟩, fun _ => ?_⟩
      exact ⟨hmin.1, hmin.2⟩

/-- C3: a candidate whose registration overlap is below `0.75` receives the
sentinel score `-1` from `scoreRegistration` whatever its distance and color
errors are, and the selection loop never returns such a candidate as the best
match. -/
theorem overlap_reject_never_selected (cfg : Config) :
    (∀ m : RegMetrics, m.overlap < 3/4 → (scoreRegistration cfg m).1 = -1) ∧
    (∀ (objR objG objB : ℚ) (cands : List GraspModel) (b : BestMatch),
      selectBest cfg objR objG objB cands = some b →
      ¬ b.minCand.metrics.overlap < 3/4) := by
  constructor
  · intro m hm
    simp [scoreRegistration, hm]
  · intro objR objG objB cands b h hover
    obtain ⟨_, _, hacc, hscore, _, _, _⟩ := selectBest_some_spec cfg objR objG objB cands b h
    have h0 : 0 ≤ candScore cfg b.minCand :=
      ((acceptedB_iff cfg objR objG objB b.minCand).mp hacc).2.2
    have hneg : candScore cfg b.minCand = -1 := by
      simp [candScore, scoreRegistration, hover]
    rw [hneg] at h0
    norm_num at h0

/-- C9: the best match returned by the selection loop is the *first* candidate
(in input list order) attaining the minimal accepted score: it is accepted,
its score is a lower bound of all accepted scores, and every accepted
candidate at a strictly smaller index has a strictly larger score — so of two
candidates with the same minimal score the earlier one is selected, because a
merely equal score never replaces the incumbent. -/
theorem selectBest_first_min_wins (cfg : Config) (objR objG objB : ℚ)
    (cands : List GraspModel) (b : BestMatch)
    (h : selectBest cfg objR objG objB cands = some b) :
    ∃ hi : b.minIndex < cands.length,
      cands.get ⟨b.minIndex, hi⟩ = b.minCand ∧
      acceptedB cfg objR objG objB b.minCand = true ∧
      candScore cfg b.minCand = b.minScore ∧
      b.minIcpTF = b.minCand.metrics.icpTF ∧
      (∀ j (hj : j < cands.length),
        acceptedB cfg objR objG objB (cands.get ⟨j, hj⟩) = true →
        b.minScore ≤ candScore cfg (cands.get ⟨j, hj⟩)) ∧
      (∀ j (hj : j < cands.length), j < b.minIndex →
        acceptedB cfg objR objG objB (cands.get ⟨j, hj⟩) = true →
        b.minScore < candScore cfg (cands.get ⟨j, hj⟩)) :=
  selectBest_some_spec cfg objR objG objB cands b h

/-! ### Properties of the ranking loop -/

theorem insertByRate_perm (rate : ℚ) (pose : PoseStamped) (l : List (ℚ × PoseStamped)) :
    (insertByRate rate pose l).Perm ((rate, pose) :: l) := by
  induction l with
  | nil => exact List.Perm.refl _
  | cons e rest ih =>
    simp only [insertByRate]
    by_cases h : rate ≤ e.1
    · rw [if_pos h]
    · rw [if_neg h]
      exact (List.Perm.cons e ih).trans (List.Perm.swap (rate, pose) e rest)

theorem insertByRate_eq_takeWhile (rate : ℚ) (pose : PoseStamped)
    (l : List (ℚ × PoseStamped)) :
    insertByRate rate pose l =
      l.takeWhile (fun e => decide (e.1 < rate)) ++
        (rate, pose) :: l.dropWhile (fun e => decide (e.1 < rate)) := by
  induction l with
  | nil => rfl
  | cons e rest ih =>
    simp only [insertByRate, List.takeWhile_cons, List.dropWhile_cons]
    by_cases h : rate ≤ e.1
    · have hd : decide (e.1 < rate) = false := by simp [not_lt.mpr h]
      rw [if_pos h, hd]
      simp
    · have hd : decide (e.1 < rate) = true := by simp [lt_of_not_le h]
      rw [if_neg h, hd]
      simp [ih]

theorem insertByRate_pairwise (rate : ℚ) (pose : PoseStamped)
    (l : List (ℚ × PoseStamped))
    (hl : l.Pairwise (fun a b => a.1 ≤ b.1)) :
    (insertByRate rate pose l).Pairwise (fun a b => a.1 ≤ b.1) := by
  induction l with
  | nil => simp [insertByRate]
  | cons e rest ih =>
    obtain ⟨he, hrest⟩ := List.pairwise_cons.mp hl
    simp only [insertByRate]
    by_cases h : rate ≤ e.1
    · rw [if_pos h]
      refine List.pairwise_cons.mpr ⟨?_, hl⟩
      intro x hx
      rcases List.mem_cons.mp hx with hx | hx
      · rw [hx]
        exact h
      · exact le_trans h (he x hx)
    · rw [if_neg h]
      push_neg at h
      refine List.pairwise_cons.mpr ⟨?_, ih hrest⟩
      intro x hx
      have hx' := (insertByRate_perm rate pose rest).mem_iff.mp hx
      rcases List.mem_cons.mp hx' with hx' | hx'
      · rw [hx']
        exact le_of_lt h
      · exact he x hx'

theorem rankLoop_pairwise (frameID : String) (gs : List Grasp) :
    ∀ acc : List (ℚ × PoseStamped), acc.Pairwise (fun a b => a.1 ≤ b.1) →
      (gs.foldl (rankStep frameID) acc).Pairwise (fun a b => a.1 ≤ b.1) := by
  induction gs with
  | nil => exact fun acc h => h
  | cons g rest ih =>
    intro acc h
    simp only [List.foldl_cons]
    apply ih
    unfold rankStep
    by_cases hk : keepGrasp g = true
    · rw [if_pos hk]
      exact insertByRate_pairwise _ _ _ h
    · rw [if_neg hk]
      exact h

theorem rankLoop_perm (frameID : String) (gs : List Grasp) :
    ∀ acc : List (ℚ × PoseStamped),
      (gs.foldl (rankStep frameID) acc).Perm
        (acc ++ (gs.filter keepGrasp).map
          (fun g => (g.getSuccessRate, rankedPose frameID g))) := by
  induction gs with
  | nil =>
    intro acc
    simp
  | cons g rest ih =>
    intro acc
    simp only [List.foldl_cons]
    by_cases hk : keepGrasp g = true
    · have h2 : rankStep frameID acc g =
          insertByRate g.getSuccessRate (rankedPose frameID g) acc := by
        unfold rankStep
        rw [if_pos hk]
      rw [h2]
      refine (ih (insertByRate g.getSuccessRate (rankedPose frameID g) acc)).trans ?_
      rw [List.filter_cons_of_pos hk, List.map_cons]
      refine ((insertByRate_perm g.getSuccessRate (rankedPose frameID g) acc).append_right
        _).trans ?_
      exact List.perm_middle.symm
    · have h2 : rankStep frameID acc g = acc := by
        unfold rankStep
        rw [if_neg hk]
      rw [h2, List.filter_cons_of_neg (by simpa using hk)]
      exact ih acc

theorem getSuccessRate_pos_iff (g : Grasp) :
    0 < g.getSuccessRate ↔ 0 < g.successes ∧ 0 < g.attempts := by
  unfold Grasp.getSuccessRate
  by_cases h : g.attempts > 0
  · rw [if_pos h]
    constructor
    · intro hr
      refine ⟨?_, h⟩
      by_contra hs
      push_neg at hs
      rw [Nat.le_zero] at hs
      rw [hs] at hr
      simp at hr
    · rintro ⟨hs, _⟩
      exact div_pos (by exact_mod_cast hs) (by exact_mod_cast h)
  · rw [if_neg h]
    constructor
    · intro hr
      exact absurd hr (lt_irrefl 0)
    · rintro ⟨_, ha⟩
      exact absurd ha h

theorem recognize_success_shape (cfg : Config) (objR objG objB : ℚ)
    (object : SegmentedObject) (candidates : List GraspModel)
    (h : (recognizeObject cfg objR objG objB object candidates).1 = true) :
    ∃ b, selectBest cfg objR objG objB candidates = some b ∧
      ¬ b.minScore > cfg.scoreConfidenceThreshold ∧
      recognizeObject cfg objR objG objB object candidates =
        (true, successRecord object b) := by
  have hc : candidates.isEmpty = false := by
    by_contra hc0
    rw [Bool.not_eq_false] at hc0
    have hr : recognizeObject cfg objR objG objB object candidates = (false, object) := by
      simp [recognizeObject, hc0]
    rw [hr] at h
    exact Bool.noConfusion h
  have hp : object.pointCloudData.isEmpty = false := by
    by_contra hp0
    rw [Bool.not_eq_false] at hp0
    have hr : recognizeObject cfg objR objG objB object candidates = (false, object) := by
      simp [recognizeObject, hp0]
    rw [hr] at h
    exact Bool.noConfusion h
  cases hsel : selectBest cfg objR objG objB candidates with
  | none =>
    rw [recognizeObject_none cfg objR objG objB object candidates hc hp hsel] at h
    exact Bool.noConfusion h
  | some b =>
    have heq := recognizeObject_some cfg objR objG objB object candidates b hc hp hsel
    by_cases ht : b.minScore > cfg.scoreConfidenceThreshold
    · rw [heq, if_pos ht] at h
      exact Bool.noConfusion h
    · exact ⟨b, rfl, ht, by rw [heq, if_neg ht]⟩

/-- C5 (amended): on every successful recognition the `w` component of the
observed object's orientation is set to 1 while the `x`, `y`, `z` components
keep whatever values the caller passed in; the result is the identity rotation
exactly when the caller passed x = y = z = 0 (as a default-initialized message
does), not for every input record. -/
theorem recognize_orientation_w_only (cfg : Config) (objR objG objB : ℚ)
    (object : SegmentedObject) (candidates : List GraspModel)
    (h : (recognizeObject cfg objR objG objB object candidates).1 = true) :
    (recognizeObject cfg objR objG objB object candidates).2.orientation =
      { object.orientation with w := 1 } := by
  obtain ⟨b, _, _, heq⟩ := recognize_success_shape cfg objR objG objB object candidates h
  rw [heq]
  rfl

attribute [local semireducible] Rat.mul Rat.add Rat.sub Rat.inv in
/-- C5 counterexample: with the caller-passed orientation (1,0,0,0) the
successful recognition writes orientation (1,0,0,1), not the identity
rotation: line 97 assigns only the `w` component. -/
theorem recognize_orientation_not_identity :
    (recognizeObject cfg0 0 0 0 objQ [cand0]).1 = true ∧
    (recognizeObject cfg0 0 0 0 objQ [cand0]).2.orientation ≠ quatIdentity := by
  decide

attribute [local semireducible] Rat.mul Rat.add Rat.sub Rat.inv in
/-- C5 witness for the amended claim: on the concrete successful run the
orientation comes out as the caller's x, y, z with w set to 1. -/
theorem recognize_orientation_w_only_witness :
    (recognizeObject cfg0 0 0 0 objQ [cand0]).2.orientation =
      { objQ.orientation with w := 1 } :=
  recognize_orientation_w_only cfg0 0 0 0 objQ [cand0] (by decide)

attribute [local semireducible] Rat.mul Rat.add Rat.sub Rat.inv in
/-- C4 counterexample: two grasps with the same success rate 1/2 are emitted
in reverse input order — the insertion point test of line 120 is
`rate <= success_rates[j]`, not strictly greater — so the claimed stability
for equal rates fails. -/
theorem rank_equal_rates_reversed :
    (rankGrasps frameA [graspA, graspB]).map Prod.snd =
      [rankedPose frameA graspB, rankedPose frameA graspA] ∧
    rankedPose frameA graspA ≠ rankedPose frameA graspB ∧
    graspA.getSuccessRate = graspB.getSuccessRate := by
  decide

/-- C4 (amended): each surviving grasp is inserted immediately before the
first existing entry whose success rate is greater than **or equal to** its
own (appending at the end when there is none), so the resulting sequence is
sorted ascending by success rate; grasps with equal rates end up in reverse
input order, not input order. -/
theorem rank_sorted_ascending :
    (∀ (rate : ℚ) (pose : PoseStamped) (l : List (ℚ × PoseStamped)),
      insertByRate rate pose l =
        l.takeWhile (fun e => decide (e.1 < rate)) ++
          (rate, pose) :: l.dropWhile (fun e => decide (e.1 < rate))) ∧
    (∀ (frameID : String) (gs : List Grasp),
      (rankGrasps frameID gs).Pairwise (fun a b => a.1 ≤ b.1)) :=
  ⟨insertByRate_eq_takeWhile, fun f gs => rankLoop_pairwise f gs [] List.Pairwise.nil⟩

attribute [local semireducible] Rat.mul Rat.add Rat.sub Rat.inv in
/-- C8: the ranking loop keeps a grasp exactly when it is *not* an
attempted-and-never-successful one: the retention test `rate > 0 ||
attempts == 0` holds iff not (attempts > 0 and successes = 0); the emitted
entries are exactly the kept grasps' (rate, stamped pose) pairs (up to the
ordering permutation); in particular a grasp with attempts = 5 and
successes = 0 is dropped while a never-attempted grasp is kept. -/
theorem rank_filter_drops_tried_failures :
    (∀ g : Grasp, keepGrasp g = true ↔ ¬(g.attempts > 0 ∧ g.successes = 0)) ∧
    (∀ (frameID : String) (gs : List Grasp),
      (rankGrasps frameID gs).Perm
        ((gs.filter keepGrasp).map (fun g => (g.getSuccessRate, rankedPose frameID g)))) ∧
    keepGrasp graspFailed = false ∧ keepGrasp graspUntested = true := by
  refine ⟨?_, ?_, by decide, by decide⟩
  · intro g
    simp only [keepGrasp, Bool.or_eq_true, decide_eq_true_eq]
    rw [gt_iff_lt, getSuccessRate_pos_iff]
    omega
  · intro f gs
    exact (rankLoop_perm f gs []).trans (by simp)

/-- C10: on every successful call the observed object's grasp sequence is
rebuilt from scratch from the matched model: it equals the ranked transferred
poses of the selected candidate's grasps (any caller-passed grasp poses are
discarded), every emitted pose is the transferred pose of one of the model's
grasps, and its length is at most the number of grasps stored with the
model. -/
theorem recognize_grasps_from_model (cfg : Config) (objR objG objB : ℚ)
    (object : SegmentedObject) (candidates : List GraspModel) (b : BestMatch)
    (hsel : selectBest cfg objR objG objB candidates = some b)
    (h : (recognizeObject cfg objR objG objB object candidates).1 = true) :
    (recognizeObject cfg objR objG objB object candidates).2.grasps =
      (rankGrasps object.pointCloudFrameID
        (computeGraspList b.minIcpTF object.centroid b.minCand.grasps)).map Prod.snd ∧
    (recognizeObject cfg objR objG objB object candidates).2.grasps.length ≤
      b.minCand.grasps.length ∧
    ∀ p ∈ (recognizeObject cfg objR objG objB object candidates).2.grasps,
      ∃ g ∈ b.minCand.grasps,
        p = rankedPose object.pointCloudFrameID
          (transferGrasp b.minIcpTF object.centroid g) := by
  obtain ⟨b', hsel', ht, heq⟩ := recognize_success_shape cfg objR objG objB object candidates h
  rw [hsel] at hsel'
  injection hsel' with hb
  subst hb
  rw [heq]
  have hperm : (rankGrasps object.pointCloudFrameID
      (computeGraspList b.minIcpTF object.centroid b.minCand.grasps)).Perm
      (((computeGraspList b.minIcpTF object.centroid b.minCand.grasps).filter
        keepGrasp).map
          (fun g => (g.getSuccessRate, rankedPose object.pointCloudFrameID g))) :=
    (rankLoop_perm object.pointCloudFrameID
      (computeGraspList b.minIcpTF object.centroid b.minCand.grasps) []).trans (by simp)
  refine ⟨rfl, ?_, ?_⟩
  · show ((rankGrasps object.pointCloudFrameID
      (computeGraspList b.minIcpTF object.centroid b.minCand.grasps)).map Prod.snd).length ≤ _
    rw [List.length_map, hperm.length_eq, List.length_map]
    calc ((computeGraspList b.minIcpTF object.centroid b.minCand.grasps).filter
          keepGrasp).length
        ≤ (computeGraspList b.minIcpTF object.centroid b.minCand.grasps).length :=
          List.length_filter_le _ _
      _ = b.minCand.grasps.length := by simp [computeGraspList]
  · intro p hp
    obtain ⟨e, he, hep⟩ := List.mem_map.mp hp
    have he' := hperm.mem_iff.mp he
    obtain ⟨g', hg'f, hge⟩ := List.mem_map.mp he'
    have hg'p : g' ∈ computeGraspList b.minIcpTF object.centroid b.minCand.grasps :=
      List.mem_of_mem_filter hg'f
    obtain ⟨g, hg, hgg⟩ := List.mem_map.mp (by simpa [computeGraspList] using hg'p)
    refine ⟨g, hg, ?_⟩
    rw [← hep, ← hge, ← hgg]

/-- C1 witness: the failure theorem applied to the empty candidate list. -/
theorem recognizeObject_failure_unchanged_witness :
    recognizeObject cfg0 0 0 0 objQ [] = (false, objQ) :=
  recognizeObject_failure_unchanged cfg0 0 0 0 objQ [] (Or.inl rfl)

attribute [local semireducible] Rat.mul Rat.add Rat.sub Rat.inv in
/-- C2 witness: the concrete run succeeds and its written confidence is a
member of, and a lower bound of, the accepted score list. -/
theorem recognizeObject_confidence_min_witness :
    (recognizeObject cfg0 0 0 0 objQ [cand0]).1 = true ∧
    (recognizeObject cfg0 0 0 0 objQ [cand0]).2.confidence ∈
      acceptedScores cfg0 0 0 0 [cand0] ∧
    ∀ s ∈ acceptedScores cfg0 0 0 0 [cand0],
      (recognizeObject cfg0 0 0 0 objQ [cand0]).2.confidence ≤ s :=
  ⟨by decide,
   ((recognizeObject_confidence_min cfg0 0 0 0 objQ [cand0]
      (by decide) (by decide)).2 (by decide)).1,
   ((recognizeObject_confidence_min cfg0 0 0 0 objQ [cand0]
      (by decide) (by decide)).2 (by decide)).2⟩

attribute [local semireducible] Rat.mul Rat.add Rat.sub Rat.inv in
/-- C3 witness: metrics with overlap 1/2 receive the sentinel score -1, and
the concretely selected best match does not have overlap below 0.75. -/
theorem overlap_reject_never_selected_witness :
    (scoreRegistration cfg0 lowOverlapMetrics).1 = -1 ∧
    ¬ best0.minCand.metrics.overlap < 3/4 :=
  ⟨(overlap_reject_never_selected cfg0).1 lowOverlapMetrics (by decide),
   (overlap_reject_never_selected cfg0).2 0 0 0 [cand0] best0 (by decide)⟩

attribute [local semireducible] Rat.mul Rat.add Rat.sub Rat.inv in
/-- C9 witness: with two candidates of identical score 4/5 the loop returns
the earlier one (index 0), and every strictly earlier accepted candidate
would have had a strictly larger score. -/
theorem selectBest_first_min_wins_witness :
    ∃ hi : best0.minIndex < ([cand0, cand1] : List GraspModel).length,
      ([cand0, cand1] : List GraspModel).get ⟨best0.minIndex, hi⟩ = best0.minCand ∧
      acceptedB cfg0 0 0 0 best0.minCand = true ∧
      candScore cfg0 best0.minCand = best0.minScore ∧
      best0.minIcpTF = best0.minCand.metrics.icpTF ∧
      (∀ j (hj : j < ([cand0, cand1] : List GraspModel).length),
        acceptedB cfg0 0 0 0 (([cand0, cand1] : List GraspModel).get ⟨j, hj⟩) = true →
        best0.minScore ≤ candScore cfg0 (([cand0, cand1] : List GraspModel).get ⟨j, hj⟩)) ∧
      (∀ j (hj : j < ([cand0, cand1] : List GraspModel).length), j < best0.minIndex →
        acceptedB cfg0 0 0 0 (([cand0, cand1] : List GraspModel).get ⟨j, hj⟩) = true →
        best0.minScore < candScore cfg0 (([cand0, cand1] : List GraspModel).get ⟨j, hj⟩)) :=
  selectBest_first_min_wins cfg0 0 0 0 [cand0, cand1] best0 (by decide)

attribute [local semireducible] Rat.mul Rat.add Rat.sub Rat.inv in
/-- C10 witness: the concrete successful run rebuilds the grasp list from the
matched model's single grasp. -/
theorem recognize_grasps_from_model_witness :
    (recognizeObject cfg0 0 0 0 objQ [cand0]).2.grasps =
      (rankGrasps objQ.pointCloudFrameID
        (computeGraspList best0.minIcpTF objQ.centroid best0.minCand.grasps)).map Prod.snd ∧
    (recognizeObject cfg0 0 0 0 objQ [cand0]).2.grasps.length ≤
      best0.minCand.grasps.length ∧
    ∀ p ∈ (recognizeObject cfg0 0 0 0 objQ [cand0]).2.grasps,
      ∃ g ∈ best0.minCand.grasps,
        p = rankedPose objQ.pointCloudFrameID
          (transferGrasp best0.minIcpTF objQ.centroid g) :=
  recognize_grasps_from_model cfg0 0 0 0 objQ [cand0] best0 (by decide) (by decide)
